import Mathlib

/-!
Verification of the htmx-infinite-scroll-gallery server (src/main.rs).

The development shallowly embeds the Rust source:

* `Direction` with its `Display` (`Direction.fmt`) and `FromStr`
  (`Direction.from_str`) implementations;
* the modal component's reference parsing, `url.split_once('?')` followed by
  `id.parse::<i32>()` (`splitOnce`, `parseI32`, `parseRef`);
* the leptos view trees as a plain HTML tree type `Html` (leptos
  `render_to_string` serialises such a tree; we state containment properties
  at the tree level);
* the process-wide `static mut IMAGE: u32` counter as explicit state passing;
  every stateful operation takes the counter and returns the updated counter.

Machine integers are modelled as `Nat`/`Int` with explicit reduction modulo
`2^32`: the counter is a `u32`, the parsed image id an `i32`.  Arithmetic
follows the release-profile two's-complement wraparound semantics of the
compiled binary (`wrap32`, `(· % u32Mod)`); a Rust component function that
panics (the `unwrap` calls on a malformed reference) is modelled as returning
`none`.
-/

/-- Modulus of the `u32` counter type: `2 ^ 32`. -/
def u32Mod : Nat := 4294967296

/-- Two's-complement wraparound of an `Int` into the `i32` range
`[-2^31, 2^31 - 1]`; models release-profile `i32` overflow. -/
def wrap32 (n : Int) : Int := (n + 2147483648) % 4294967296 - 2147483648

/-! ### Decimal rendering (Rust `format!("{}")` on unsigned / signed integers)

Rust's `Display` for integers prints the usual decimal numeral.  We model it
with a fuel-structural digit extractor so that the kernel can evaluate it. -/

/-- Little-endian decimal digits of `n`, with explicit fuel (structural, so
concrete instances reduce in the kernel).  `decDigitsAux fuel n` is correct
whenever `n ≤ fuel`. -/
def decDigitsAux : Nat → Nat → List Nat
  | 0, _ => []
  | fuel + 1, n => if n = 0 then [] else n % 10 :: decDigitsAux fuel (n / 10)

/-- Little-endian decimal digits of `n` (`n` itself is always enough fuel). -/
def decDigits (n : Nat) : List Nat := decDigitsAux n n

/-- Value of a little-endian digit list. -/
def digitsVal : List Nat → Nat
  | [] => 0
  | d :: ds => d + 10 * digitsVal ds

/-- Decimal numeral of a natural number, as printed by Rust `format!("{}")`
on a `u32`. -/
def decRepr (n : Nat) : String :=
  if n = 0 then "0" else String.mk (((decDigits n).map Nat.digitChar).reverse)

/-- Decimal numeral of an integer, as printed by Rust `format!("{}")` on an
`i32` (a leading `-` for negative values). -/
def intRepr (i : Int) : String :=
  if i < 0 then "-" ++ decRepr i.natAbs else decRepr i.toNat

theorem decDigitsAux_val : ∀ fuel n, n ≤ fuel → digitsVal (decDigitsAux fuel n) = n := by
  intro fuel
  induction fuel with
  | zero =>
    intro n h
    have : n = 0 := Nat.le_zero.mp h
    subst this
    rfl
  | succ f ih =>
    intro n h
    by_cases h0 : n = 0
    · subst h0; rfl
    · have hdiv : n / 10 ≤ f := by
        have hlt : n / 10 < n := Nat.div_lt_self (Nat.pos_of_ne_zero h0) (by omega)
        omega
      simp only [decDigitsAux, h0, if_false, digitsVal]
      rw [ih (n / 10) hdiv]
      omega

theorem decDigits_val (n : Nat) : digitsVal (decDigits n) = n :=
  decDigitsAux_val n n le_rfl

theorem decDigits_injective : Function.Injective decDigits := by
  intro a b h
  have := congrArg digitsVal h
  rwa [decDigits_val, decDigits_val] at this

theorem decDigitsAux_lt : ∀ fuel n, ∀ d ∈ decDigitsAux fuel n, d < 10 := by
  intro fuel
  induction fuel with
  | zero => intro n d hd; simp [decDigitsAux] at hd
  | succ f ih =>
    intro n d hd
    by_cases h0 : n = 0
    · subst h0; simp [decDigitsAux] at hd
    · simp only [decDigitsAux, h0, if_false, List.mem_cons] at hd
      rcases hd with hd | hd
      · subst hd; exact Nat.mod_lt _ (by omega)
      · exact ih _ _ hd

theorem decDigits_lt (n : Nat) : ∀ d ∈ decDigits n, d < 10 :=
  decDigitsAux_lt n n

theorem digitChar_inj_lt : ∀ a b : Nat, a < 10 → b < 10 →
    Nat.digitChar a = Nat.digitChar b → a = b := by
  have h : ∀ a b : Fin 10, Nat.digitChar a.val = Nat.digitChar b.val → a.val = b.val := by
    decide
  intro a b ha hb heq
  exact h ⟨a, ha⟩ ⟨b, hb⟩ heq

theorem map_digitChar_inj : ∀ l₁ l₂ : List Nat, (∀ d ∈ l₁, d < 10) → (∀ d ∈ l₂, d < 10) →
    l₁.map Nat.digitChar = l₂.map Nat.digitChar → l₁ = l₂ := by
  intro l₁
  induction l₁ with
  | nil => intro l₂ _ _ h; cases l₂ <;> simp_all
  | cons a t ih =>
    intro l₂ h₁ h₂ h
    cases l₂ with
    | nil => simp at h
    | cons b t₂ =>
      simp only [List.map_cons, List.cons.injEq] at h
      have hab : a = b :=
        digitChar_inj_lt a b (h₁ a (by simp)) (h₂ b (by simp)) h.1
      have ht : t = t₂ :=
        ih t₂ (fun d hd => h₁ d (by simp [hd])) (fun d hd => h₂ d (by simp [hd])) h.2
      rw [hab, ht]

theorem decRepr_ne_zero_str (b : Nat) (hb : b ≠ 0) : decRepr b ≠ "0" := by
  intro h
  simp only [decRepr, if_neg hb] at h
  have hdata : ((decDigits b).map Nat.digitChar).reverse = ['0'] := congrArg String.data h
  have hmap : (decDigits b).map Nat.digitChar = ['0'] := by
    have := congrArg List.reverse hdata
    simpa using this
  cases hd : decDigits b with
  | nil =>
    rw [hd] at hmap
    simp at hmap
  | cons d ds =>
    rw [hd] at hmap
    simp only [List.map_cons, List.cons.injEq] at hmap
    have hds : ds = [] := by
      cases ds with
      | nil => rfl
      | cons _ _ => simp at hmap
    have hd0 : d = 0 := by
      have hlt : d < 10 := decDigits_lt b d (by simp [hd])
      have hch : Nat.digitChar d = Nat.digitChar 0 := by rw [hmap.1]; rfl
      exact digitChar_inj_lt d 0 hlt (by omega) hch
    have hv := decDigits_val b
    rw [hd, hds, hd0] at hv
    simp [digitsVal] at hv
    omega

theorem decRepr_injective : Function.Injective decRepr := by
  intro a b h
  by_cases ha : a = 0 <;> by_cases hb : b = 0
  · omega
  · exact absurd (by rw [← h, ha]; rfl) (decRepr_ne_zero_str b hb)
  · exact absurd (by rw [h, hb]; rfl) (decRepr_ne_zero_str a ha)
  · simp only [decRepr, if_neg ha, if_neg hb] at h
    have hdata : ((decDigits a).map Nat.digitChar).reverse =
        ((decDigits b).map Nat.digitChar).reverse := congrArg String.data h
    have hrev : (decDigits a).map Nat.digitChar = (decDigits b).map Nat.digitChar := by
      have := congrArg List.reverse hdata
      simpa using this
    exact decDigits_injective
      (map_digitChar_inj _ _ (decDigits_lt a) (decDigits_lt b) hrev)

/-! ### Direction (src/main.rs lines 32-58) -/

/-- Navigation direction of the modal, `enum Direction { Left, Right }`. -/
inductive Direction where
  | left : Direction
  | right : Direction
deriving DecidableEq

/-- The `Display` implementation for `Direction` (lines 39-46). -/
def Direction.fmt : Direction → String
  | .left => "left"
  | .right => "right"

/-- The `FromStr` implementation for `Direction` (lines 48-58); the `Err(())`
case of the Rust `Result` is modelled as `none`. -/
def Direction.from_str (s : String) : Option Direction :=
  if s = "left" then some .left
  else if s = "right" then some .right
  else none

/-! ### Reference parsing (src/main.rs lines 216-217)

`let (base, id) = url.split_once('?').unwrap();`
`let id = id.parse::<i32>().unwrap();` -/

/-- Split a character list at the first occurrence of `sep`; `none` when `sep`
does not occur.  Models Rust `str::split_once`. -/
def splitOnceChars : List Char → Char → Option (List Char × List Char)
  | [], _ => none
  | c :: cs, sep =>
    if c = sep then some ([], cs)
    else (splitOnceChars cs sep).map fun p => (c :: p.1, p.2)

/-- Rust `str::split_once`: split a string at the first occurrence of `sep`,
returning the text before and after it. -/
def splitOnce (s : String) (sep : Char) : Option (String × String) :=
  (splitOnceChars s.data sep).map fun p => (String.mk p.1, String.mk p.2)

/-- All-decimal-digit check plus value, used by `parseI32`; `none` on an empty
digit string or any non-digit character. -/
def parseDigits (cs : List Char) : Option Nat :=
  if cs ≠ [] ∧ cs.all (fun c => c.isDigit) then
    some (cs.foldl (fun a c => a * 10 + (c.toNat - 48)) 0)
  else none

/-- Character-level body of `parseI32`: an optional single `+`/`-` sign
followed by at least one ASCII digit, with the value required to fit in `i32`
(overflow is a parse error). -/
def parseI32Chars : List Char → Option Int
  | [] => none
  | c :: cs =>
    if c = '+' then
      (parseDigits cs).bind fun n =>
        if n ≤ 2147483647 then some (n : Int) else none
    else if c = '-' then
      (parseDigits cs).bind fun n =>
        if n ≤ 2147483648 then some (-(n : Int)) else none
    else
      (parseDigits (c :: cs)).bind fun n =>
        if n ≤ 2147483647 then some (n : Int) else none

/-- Rust `str::parse::<i32>()`; `none` models `Err(ParseIntError)`. -/
def parseI32 (s : String) : Option Int := parseI32Chars s.data

/-- The modal component's reference parsing (lines 216-217): split the url at
the first `?` and parse the trailing segment as an `i32`.  `none` models the
`unwrap` panic (an unrecovered, fatal request-handling failure). -/
def parseRef (url : String) : Option (String × Int) :=
  (splitOnce url '?').bind fun p =>
    (parseI32 p.2).map fun n => (p.1, n)

theorem splitOnceChars_eq_none : ∀ (l : List Char) (sep : Char),
    splitOnceChars l sep = none ↔ sep ∉ l := by
  intro l sep
  induction l with
  | nil => simp [splitOnceChars]
  | cons c cs ih =>
    by_cases hc : c = sep
    · subst hc
      simp [splitOnceChars]
    · simp only [splitOnceChars, if_neg hc, List.mem_cons, Option.map_eq_none', ih]
      constructor
      · intro h hm
        rcases hm with hm | hm
        · exact hc hm.symm
        · exact h hm
      · intro h hm
        exact h (Or.inr hm)

theorem splitOnce_eq_none (s : String) (sep : Char) :
    splitOnce s sep = none ↔ sep ∉ s.data := by
  unfold splitOnce
  rw [Option.map_eq_none']
  exact splitOnceChars_eq_none s.data sep

theorem splitOnceChars_first : ∀ (l r : List Char) (sep : Char), sep ∉ l →
    splitOnceChars (l ++ sep :: r) sep = some (l, r) := by
  intro l
  induction l with
  | nil =>
    intro r sep _
    simp [splitOnceChars]
  | cons c cs ih =>
    intro r sep hmem
    have hc : c ≠ sep := fun h => hmem (by simp [h])
    have hcs : sep ∉ cs := fun h => hmem (by simp [h])
    show splitOnceChars (c :: (cs ++ sep :: r)) sep = _
    simp only [splitOnceChars, if_neg hc]
    rw [ih r sep hcs]
    rfl

theorem splitOnce_first (base rest : String) (h : '?' ∉ base.data) :
    splitOnce (base ++ "?" ++ rest) '?' = some (base, rest) := by
  unfold splitOnce
  have hdata : (base ++ "?" ++ rest).data = base.data ++ '?' :: rest.data := by
    simp [String.data_append]
  rw [hdata, splitOnceChars_first base.data rest.data '?' h]
  rfl

theorem parseI32Chars_range (l : List Char) (n : Int) (h : parseI32Chars l = some n) :
    -2147483648 ≤ n ∧ n ≤ 2147483647 := by
  cases l with
  | nil => exact absurd h (by simp [parseI32Chars])
  | cons c cs =>
    simp only [parseI32Chars] at h
    split_ifs at h with h1 h2
    · cases hp : parseDigits cs with
      | none => rw [hp] at h; exact absurd h (by simp)
      | some k =>
        rw [hp] at h
        simp only [Option.some_bind] at h
        split_ifs at h with hk
        · have := Option.some.inj h
          omega
    · cases hp : parseDigits cs with
      | none => rw [hp] at h; exact absurd h (by simp)
      | some k =>
        rw [hp] at h
        simp only [Option.some_bind] at h
        split_ifs at h with hk
        · have := Option.some.inj h
          omega
    · cases hp : parseDigits (c :: cs) with
      | none => rw [hp] at h; exact absurd h (by simp)
      | some k =>
        rw [hp] at h
        simp only [Option.some_bind] at h
        split_ifs at h with hk
        · have := Option.some.inj h
          omega

theorem parseI32_range (s : String) (n : Int) (h : parseI32 s = some n) :
    -2147483648 ≤ n ∧ n ≤ 2147483647 :=
  parseI32Chars_range s.data n h

theorem parseRef_range (url : String) (base : String) (n : Int)
    (h : parseRef url = some (base, n)) : -2147483648 ≤ n ∧ n ≤ 2147483647 := by
  unfold parseRef at h
  cases hs : splitOnce url '?' with
  | none => rw [hs] at h; exact absurd h (by simp)
  | some p =>
    rw [hs] at h
    simp only [Option.some_bind] at h
    cases hp : parseI32 p.2 with
    | none => rw [hp] at h; exact absurd h (by simp)
    | some k =>
      rw [hp] at h
      simp only [Option.map_some'] at h
      have hk := Option.some.inj h
      have : k = n := congrArg Prod.snd hk
      subst this
      exact parseI32_range p.2 k hp

/-! ### HTML fragment trees

The leptos `view!` macro builds a tree of elements; `render_to_string`
serialises it.  We embed the tree itself: an element with a tag, an attribute
list (in source order) and children, or a text node. -/

/-- An HTML node: element with tag, attributes and children, or text. -/
inductive Html where
  | element : String → List (String × String) → List Html → Html
  | text : String → Html

/-- Fuel-bounded tree search: does any element node satisfy `p` (applied to
its tag and attribute list)?  The fuel is structural so that concrete
instances reduce in the kernel; every tree in this development has depth
well below 100. -/
def anyElemFuel (p : String → List (String × String) → Bool) : Nat → Html → Bool
  | 0, _ => false
  | fuel + 1, .element t attrs cs => p t attrs || cs.any (anyElemFuel p fuel)
  | _ + 1, .text _ => false

/-- Tree search with ample fuel for every tree in this development. -/
def anyElem (p : String → List (String × String) → Bool) (h : Html) : Bool :=
  anyElemFuel p 100 h

/-- Fuel-bounded collection, in document order, of the values of attribute
`key` on elements with tag `tag`. -/
def collectAttrFuel (tag key : String) : Nat → Html → List String
  | 0, _ => []
  | fuel + 1, .element t attrs cs =>
    (if t == tag then (attrs.filter fun a => a.1 == key).map (fun a => a.2) else [])
      ++ cs.foldr (fun h acc => collectAttrFuel tag key fuel h ++ acc) []
  | _ + 1, .text _ => []

/-- Document-order values of attribute `key` on elements with tag `tag`. -/
def collectAttr (tag key : String) (h : Html) : List String :=
  collectAttrFuel tag key 100 h

/-! ### Counter and URL generator (src/main.rs lines 301-306)

`static mut IMAGE: u32 = 0;` is modelled as an explicit `Nat` state below
`u32Mod`, threaded through every operation that renders image items. -/

/-- `random_image_url` (lines 303-306): increment the shared `u32` counter and
return the placeholder URL parameterised by the new counter value, together
with the new counter state. -/
def random_image_url (c : Nat) : String × Nat :=
  let c' := (c + 1) % u32Mod
  ("https://picsum.photos/800/800?" ++ decRepr c', c')

/-! ### Components (src/main.rs lines 115-295) -/

/-- The `Indicator` component (lines 285-295): three animated dots. -/
def indicator : Html :=
  .element "div" [("class", "indicator text-3xl")]
    [ .element "span" [("class", "inline-block animate-bounce")] [.text "."],
      .element "span" [("class", "inline-block animate-bounce")] [.text "."],
      .element "span" [("class", "inline-block animate-bounce")] [.text "."] ]

/-- The `ImageItem` component (lines 188-208): renders one image item and
increments the counter via `random_image_url`. -/
def image_item (c : Nat) : Html × Nat :=
  let (url, c') := random_image_url c
  ( .element "li"
      [ ("tabindex", "1"),
        ("class", "w-auto h-auto overflow-hidden flex rounded-xl shadow-md bg-gray-100 group hover:ring-2 hover:ring-neutral-400 hover:ring-offset-2 focus:ring-2 focus:ring-neutral-400 focus:ring-offset-2 cursor-pointer outline-none"),
        ("hx-trigger", "click, keyup[key==\x27Enter\x27]"),
        ("hx-get", "/modal/open?url=" ++ url),
        ("hx-target", "body"),
        ("hx-swap", "beforeend") ]
      [ .element "img"
          [ ("class", "w-full h-full object-cover aspect-square transition duration-[2s] group-hover:scale-110 group-focus:scale-110"),
            ("src", url), ("alt", "") ]
          [] ],
    c' )

/-- The sentinel `<li>` of the `ImageList` component (lines 171-180): the
intersection-observer target that fetches `/more`. -/
def indicator_li : Html :=
  .element "li"
    [ ("class", "w-auto h-auto overflow-hidden flex rounded-xl mt-4 col-span-full justify-center"),
      ("id", "indicator-container"),
      ("hx-trigger", "intersect delay:0.75s"),
      ("hx-get", "/more"),
      ("hx-target", "this"),
      ("hx-swap", "outerHTML") ]
    [ indicator ]

/-- `n` consecutive `ImageItem` renders (the `<For each=0..16>` loop),
threading the counter. -/
def image_items : Nat → Nat → List Html × Nat
  | 0, c => ([], c)
  | n + 1, c =>
    let (h, c') := image_item c
    let (rest, c'') := image_items n c'
    (h :: rest, c'')

/-- The `ImageList` component (lines 157-182): 16 image items followed by the
sentinel element. -/
def image_list (c : Nat) : List Html × Nat :=
  let (items, c') := image_items 16 c
  (items ++ [indicator_li], c')

/-- The `Modal` component's view tree (lines 224-279), for an
already-parsed reference.  `url` is the raw reference string (used verbatim
as the image `src`), `base`/`id` its parsed parts, `dir` the optional
navigation direction.  The `i32` increment/decrement of the nav targets is
`wrap32`.  The `hx-trigget` attribute reproduces a typo in the source. -/
def modalTree (url base : String) (id : Int) (dir : Option Direction) : Html :=
  let modal_id := match dir with
    | some d => "modal-content-" ++ d.fmt
    | none => "modal-content"
  .element "div"
    [ ("class", "fixed w-full h-full top-0 left-0 focus:opacity-75 overflow-hidden"),
      ("hx-target", "this"), ("hx-swap", "outerHTML") ]
    [ .element "div"
        [ ("class", "w-full h-full bg-gray-800 opacity-75"),
          ("hx-on", "click: this.parentElement.outerHTML = \x27\x27") ]
        [],
      .element "button"
        [ ("class", "fixed text-2xl top-1/2 -translate-y-1/2 left-10 cursor-pointer text-white p-2 aspect-square rounded-full ring-1 ring-gray-50 active:bg-gray-500"),
          ("hx-trigget", "click"),
          ("hx-get", "/modal/open?dir=left&url=" ++ base ++ "?" ++ intRepr (wrap32 (id - 1))) ]
        [ .element "svg"
            [ ("fill", "none"), ("viewBox", "0 0 24 24"), ("stroke-width", "1.5"),
              ("stroke", "currentColor"), ("class", "w-6 h-6") ]
            [ .element "path"
                [ ("stroke-linecap", "round"), ("stroke-linejoin", "round"),
                  ("d", "M15.75 19.5L8.25 12l7.5-7.5") ]
                [] ] ],
      .element "button"
        [ ("class", "fixed text-2xl top-1/2 -translate-y-1/2 right-10 cursor-pointer text-white p-2 aspect-square rounded-full ring-1 ring-gray-50 active:bg-gray-500"),
          ("hx-trigget", "click"),
          ("hx-get", "/modal/open?dir=right&url=" ++ base ++ "?" ++ intRepr (wrap32 (id + 1))) ]
        [ .element "svg"
            [ ("fill", "none"), ("viewBox", "0 0 24 24"), ("stroke-width", "1.5"),
              ("stroke", "currentColor"), ("class", "w-6 h-6") ]
            [ .element "path"
                [ ("stroke-linecap", "round"), ("stroke-linejoin", "round"),
                  ("d", "M8.25 4.5l7.5 7.5-7.5 7.5") ]
                [] ] ],
      .element "div"
        [ ("id", modal_id),
          ("class", "fixed top-1/2 left-1/2 -translate-x-1/2 -translate-y-1/2 w-4/5 lg:w-1/2 max-w-3xl aspect-square rounded-md shadow-md overflow-hidden outline-none"),
          ("tabindex", "1"), ("autofocus", "") ]
        [ .element "img"
            [ ("class", "w-full h-full object-cover aspect-square"),
              ("src", url), ("alt", "") ]
            [] ],
      .element "button"
        [ ("class", "fixed top-6 right-6 rounded-full bg-white shadow-xl w-8 h-8 flex items-center justify-center font-light text-xl text-neutral-700 cursor-pointer"),
          ("hx-on", "click: this.parentElement.outerHTML = \x27\x27") ]
        [ .element "svg"
            [ ("fill", "none"), ("viewBox", "0 0 24 24"), ("stroke-width", "1.5"),
              ("stroke", "currentColor"), ("class", "w-6 h-6") ]
            [ .element "path"
                [ ("stroke-linecap", "round"), ("stroke-linejoin", "round"),
                  ("d", "M6 18L18 6M6 6l12 12") ]
                [] ] ] ]

/-- The `Modal` component (lines 214-279): parses the reference (the two
`unwrap` calls; `none` models the panic) and renders the modal tree. -/
def Modal (url : String) (dir : Option Direction) : Option Html :=
  (parseRef url).map fun p => modalTree url p.1 p.2 dir

/-- The `App` component (lines 115-148): page shell embedding one
`ImageList`. -/
def app (c : Nat) : List Html × Nat :=
  let (items, c') := image_list c
  ( [ .element "head" []
        [ .element "title" [] [.text "HTMX Infinite Scroll Gallery"],
          .element "link" [("rel", "stylesheet"), ("href", "/static/output.css")] [] ],
      .element "body"
        [ ("class", "max-w-7xl m-auto px-8 lg:px-12 pb-12 pt-20 bg-gray-200 font-poppins") ]
        [ .element "main"
            [ ("class", "w-full flex flex-col items-center gap-2 lg:gap-4 space-y-10") ]
            [ .element "h1" [("class", "text-5xl tracking-wide font-semibold")]
                [.text "HTMX Infinite Scroll Gallery"],
              .element "ul"
                [ ("id", "images"),
                  ("class", "w-full grid grid-cols-2 md:grid-cols-3 lg:grid-cols-4 gap-3") ]
                items ],
          .element "script"
            [ ("src", "https://unpkg.com/htmx.org@1.9.3/dist/htmx.min.js") ] [] ] ],
    c' )

/-! ### HTTP handlers (src/main.rs lines 67-106)

Each handler returns `200 OK` with `Content-Type: text/html` and the rendered
fragment as body (axum's `IntoResponse` for `Html<String>`; the status and
content type are modelled from the spec's description of that collaborator).
The query string is modelled as an association list (axum's
`Query<HashMap<String, String>>`), the shared counter as explicit state. -/

/-- An HTTP response: status, content type, and body (a list of rendered
fragment trees). -/
structure HttpResponse where
  status : Nat
  contentType : String
  body : List Html

/-- `GET /` handler `root` (lines 67-75). -/
def root (c : Nat) : HttpResponse × Nat :=
  let (l, c') := app c
  (⟨200, "text/html", l⟩, c')

/-- `GET /more` handler `more` (lines 81-89). -/
def more (c : Nat) : HttpResponse × Nat :=
  let (l, c') := image_list c
  (⟨200, "text/html", l⟩, c')

/-- `GET /modal/open` handler `modal` (lines 95-106): the `url` parameter
defaults to the empty string when absent, `dir` is parsed leniently
(`.parse::<Direction>().ok()`), and the component is rendered.  The counter
is untouched (the modal path never calls `random_image_url`); `none` models
the component's unrecovered panic. -/
def modal (q : List (String × String)) (c : Nat) : Option HttpResponse × Nat :=
  let url := (q.lookup "url").getD ""
  let dir := (q.lookup "dir").bind Direction.from_str
  ((Modal url dir).map fun h => ⟨200, "text/html", [h]⟩, c)

/-! ### Sequential counter traces (for the monotonicity claims) -/

/-- Counter values produced by `n` consecutive `random_image_url` calls from
state `c`, with the final state. -/
def counterVals : Nat → Nat → List Nat × Nat
  | 0, c => ([], c)
  | n + 1, c =>
    let c' := (c + 1) % u32Mod
    let (vs, c'') := counterVals n c'
    (c' :: vs, c'')

/-- URLs produced by `n` consecutive `random_image_url` calls from state `c`,
with the final state. -/
def nextImageUrls : Nat → Nat → List String × Nat
  | 0, c => ([], c)
  | n + 1, c =>
    let (u, c') := random_image_url c
    let (rest, c'') := nextImageUrls n c'
    (u :: rest, c'')

/-- Recogniser for an `ImageItem` node: an `<li>` that targets the body
(the sentinel targets itself instead). -/
def isImageItem (h : Html) : Bool :=
  match h with
  | .element t attrs _ => t == "li" && attrs.any fun a => a.1 == "hx-target" && a.2 == "body"
  | .text _ => false

/-- Recogniser for the sentinel node: an `<li>` with id `indicator-container`. -/
def isSentinel (h : Html) : Bool :=
  match h with
  | .element t attrs _ => t == "li" && attrs.any fun a => a.1 == "id" && a.2 == "indicator-container"
  | .text _ => false

/-! ### Helper lemmas -/

theorem Modal_eq_of_parseRef (url base : String) (id : Int) (dir : Option Direction)
    (h : parseRef url = some (base, id)) :
    Modal url dir = some (modalTree url base id dir) := by
  unfold Modal
  rw [h]
  rfl

theorem modalTree_nav_targets (url base : String) (id : Int) (dir : Option Direction) :
    collectAttr "button" "hx-get" (modalTree url base id dir) =
      ["/modal/open?dir=left&url=" ++ base ++ "?" ++ intRepr (wrap32 (id - 1)),
       "/modal/open?dir=right&url=" ++ base ++ "?" ++ intRepr (wrap32 (id + 1))] := rfl

theorem image_items_succ (n c : Nat) :
    image_items (n + 1) c =
      ((image_item c).1 :: (image_items n ((image_item c).2)).1,
       (image_items n ((image_item c).2)).2) := rfl

theorem image_items_length : ∀ n c, ((image_items n c).1).length = n := by
  intro n
  induction n with
  | zero => intro c; rfl
  | succ m ih =>
    intro c
    rw [image_items_succ]
    simp [ih]

theorem image_items_mem : ∀ n c, ∀ h ∈ (image_items n c).1,
    isImageItem h = true ∧ isSentinel h = false := by
  intro n
  induction n with
  | zero => intro c h hm; simp [image_items] at hm
  | succ m ih =>
    intro c h hm
    rw [image_items_succ] at hm
    rcases List.mem_cons.mp hm with hm | hm
    · subst hm
      exact ⟨rfl, rfl⟩
    · exact ih _ h hm

theorem image_list_eq (c : Nat) :
    image_list c = ((image_items 16 c).1 ++ [indicator_li], (image_items 16 c).2) := rfl

theorem image_items_snd : ∀ n c, (image_items (n + 1) c).2 = (c + n + 1) % u32Mod := by
  intro n
  induction n with
  | zero => intro c; rfl
  | succ m ih =>
    intro c
    rw [image_items_succ]
    rw [show (image_item c).2 = (c + 1) % u32Mod from rfl, ih]
    simp only [u32Mod]
    omega

theorem image_list_snd (c : Nat) : (image_list c).2 = (c + 16) % u32Mod := by
  rw [image_list_eq]
  have := image_items_snd 15 c
  simpa using this

theorem counterVals_succ (n c : Nat) :
    counterVals (n + 1) c =
      ((c + 1) % u32Mod :: (counterVals n ((c + 1) % u32Mod)).1,
       (counterVals n ((c + 1) % u32Mod)).2) := rfl

theorem nextImageUrls_succ (n c : Nat) :
    nextImageUrls (n + 1) c =
      (("https://picsum.photos/800/800?" ++ decRepr ((c + 1) % u32Mod)) ::
        (nextImageUrls n ((c + 1) % u32Mod)).1,
       (nextImageUrls n ((c + 1) % u32Mod)).2) := rfl

theorem nextImageUrls_eq_map : ∀ n c, (nextImageUrls n c).1 =
    ((counterVals n c).1).map (fun v => "https://picsum.photos/800/800?" ++ decRepr v) := by
  intro n
  induction n with
  | zero => intro c; rfl
  | succ m ih =>
    intro c
    rw [nextImageUrls_succ, counterVals_succ]
    simp [ih]

theorem counterVals_fst : ∀ n c, c + n < u32Mod →
    (counterVals n c).1 = List.range' (c + 1) n := by
  intro n
  induction n with
  | zero => intro c _; rfl
  | succ m ih =>
    intro c h
    have hc : (c + 1) % u32Mod = c + 1 := Nat.mod_eq_of_lt (by omega)
    rw [counterVals_succ, hc]
    rw [ih (c + 1) (by omega)]
    rfl

theorem counterVals_snd : ∀ n c, c + n < u32Mod → (counterVals n c).2 = c + n := by
  intro n
  induction n with
  | zero => intro c _; rfl
  | succ m ih =>
    intro c h
    have hc : (c + 1) % u32Mod = c + 1 := Nat.mod_eq_of_lt (by omega)
    rw [counterVals_succ, hc]
    rw [ih (c + 1) (by omega)]
    omega

theorem counterVals_split : ∀ m n c, (counterVals (m + n) c).1 =
    (counterVals m c).1 ++ (counterVals n ((counterVals m c).2)).1 := by
  intro m
  induction m with
  | zero =>
    intro n c
    rw [Nat.zero_add]
    rfl
  | succ k ih =>
    intro n c
    have hkn : k + 1 + n = (k + n) + 1 := by omega
    rw [hkn, counterVals_succ, counterVals_succ, ih]
    simp

theorem picsum_url_injective :
    Function.Injective (fun v => "https://picsum.photos/800/800?" ++ decRepr v) := by
  intro a b h
  apply decRepr_injective
  have hdata := congrArg String.data h
  simp only [String.data_append] at hdata
  have := List.append_cancel_left hdata
  exact String.ext this

/-! ### Claims -/

/-- C1: Rendering the modal fragment for a reference string fails (the
unrecovered `unwrap` panic, modelled as `none`) if and only if the string
contains no `?` character, or the segment after the first `?` is not
parseable as an integer (the `i32` the code parses into); in particular
rendering fails for `"no-separator"` and for `"images?abc"`. -/
theorem c1_modal_failure_iff : ∀ (url : String) (dir : Option Direction),
    (Modal url dir = none ↔
      '?' ∉ url.data ∨
        ∃ base rest, splitOnce url '?' = some (base, rest) ∧ parseI32 rest = none) ∧
    Modal "no-separator" dir = none ∧ Modal "images?abc" dir = none := by
  intro url dir
  refine ⟨?_, rfl, rfl⟩
  unfold Modal parseRef
  cases hs : splitOnce url '?' with
  | none =>
    simp only [Option.none_bind, Option.map_none']
    exact ⟨fun _ => Or.inl ((splitOnce_eq_none url '?').mp hs), fun _ => trivial⟩
  | some p =>
    have hq : ¬ ('?' ∉ url.data) := fun hn => by
      rw [(splitOnce_eq_none url '?').mpr hn] at hs
      cases hs
    simp only [Option.some_bind]
    cases hp : parseI32 p.2 with
    | none =>
      simp only [Option.map_none']
      exact ⟨fun _ => Or.inr ⟨p.1, p.2, rfl, hp⟩, fun _ => trivial⟩
    | some k =>
      simp only [Option.map_some']
      constructor
      · intro h
        cases h
      · rintro (h | ⟨b, r, hsr, hpr⟩)
        · exact absurd h hq
        · exfalso
          have hpb : p = (b, r) := Option.some.inj hsr
          rw [hpb] at hp
          simp only at hp
          rw [hpr] at hp
          cases hp

/-- C2: For every `GET /modal/open` request whose query lacks the `url`
parameter, the handler substitutes the empty string for `url`, and the empty
string (containing no `?`) triggers the malformed-reference failure, so a
missing `url` manifests as the same unrecovered parse failure rather than a
structured error; the counter is untouched. -/
theorem c2_missing_url_defaults_empty : ∀ (q : List (String × String)) (c : Nat),
    q.lookup "url" = none →
    (modal q c).1 = none ∧ (modal q c).2 = c ∧ splitOnce "" '?' = none ∧
      Modal "" ((q.lookup "dir").bind Direction.from_str) = none := by
  intro q c h
  unfold modal
  rw [h]
  exact ⟨rfl, rfl, rfl, rfl⟩

/-- Witness for C2 at the concrete query `[("dir", "left")]`, which has no
`url` key. -/
theorem c2_missing_url_defaults_empty_witness :
    (modal [("dir", "left")] 0).1 = none ∧ (modal [("dir", "left")] 0).2 = 0 ∧
    splitOnce "" '?' = none ∧
    Modal "" (([("dir", "left")].lookup "dir").bind Direction.from_str) = none :=
  c2_missing_url_defaults_empty [("dir", "left")] 0 rfl

/-- C5: Every rendering of the `ImageList` fragment yields exactly 16 image
items followed by exactly one sentinel element, regardless of the counter's
current value (hence regardless of how many times it has been called
before). -/
theorem c5_list_cardinality : ∀ c : Nat,
    ((image_list c).1).countP isImageItem = 16 ∧
    ((image_list c).1).countP isSentinel = 1 ∧
    ((image_list c).1).length = 17 ∧
    ((image_list c).1).getLast? = some indicator_li := by
  intro c
  have heq : (image_list c).1 = (image_items 16 c).1 ++ [indicator_li] :=
    congrArg Prod.fst (image_list_eq c)
  rw [heq]
  refine ⟨?_, ?_, ?_, List.getLast?_concat _⟩
  · rw [List.countP_append]
    have h1 : ((image_items 16 c).1).countP isImageItem = 16 := by
      rw [List.countP_eq_length.mpr fun a ha => (image_items_mem 16 c a ha).1]
      exact image_items_length 16 c
    rw [h1]
    rfl
  · rw [List.countP_append]
    have h1 : ((image_items 16 c).1).countP isSentinel = 0 :=
      List.countP_eq_zero.mpr fun a ha => by simp [(image_items_mem 16 c a ha).2]
    rw [h1]
    rfl
  · simp [image_items_length 16 c]

/-- C8: For every input string containing a `?` whose segment after the first
`?` parses as an integer, reference parsing splits at the first `?` and
returns the text before it together with the integer value of the text after
it; in particular `parse_ref("images?42") = ("images", 42)` and
`parse_ref("a/b?0") = ("a/b", 0)`. -/
theorem c8_reference_split :
    parseRef "images?42" = some ("images", 42) ∧
    parseRef "a/b?0" = some ("a/b", 0) ∧
    ∀ (base rest : String) (n : Int), '?' ∉ base.data → parseI32 rest = some n →
      parseRef (base ++ "?" ++ rest) = some (base, n) := by
  refine ⟨by decide, by decide, ?_⟩
  intro base rest n hb hp
  unfold parseRef
  rw [splitOnce_first base rest hb]
  simp [hp]

/-- Witness for C8 at the concrete reference `"images" ++ "?" ++ "42"`. -/
theorem c8_reference_split_witness :
    ('?' ∉ "images".data) ∧ parseI32 "42" = some 42 ∧
    parseRef ("images" ++ "?" ++ "42") = some ("images", 42) :=
  ⟨by decide, by decide, c8_reference_split.2.2 "images" "42" 42 (by decide) (by decide)⟩

/-- C9: For every direction `d`, parsing the serialization of `d` yields `d`
again, with the serialization `Left → "left"`, `Right → "right"`. -/
theorem c9_direction_roundtrip : ∀ d : Direction,
    Direction.from_str (Direction.fmt d) = some d ∧
    Direction.fmt Direction.left = "left" ∧ Direction.fmt Direction.right = "right" := by
  intro d
  refine ⟨?_, rfl, rfl⟩
  cases d <;> rfl

/-- C4: A `GET /modal/open` request with `url=images?10` and `dir=left`
returns `200` with content type `text/html`, and the rendered fragment
contains an element whose id is `modal-content-left` and an image whose `src`
equals `images?10`; in general, whenever a direction is given, the modal
image element's id is `"modal-content-"` followed by the serialized
direction. -/
theorem c4_modal_end_to_end :
    (∀ c : Nat,
      (modal [("url", "images?10"), ("dir", "left")] c).1 =
        some ⟨200, "text/html", [modalTree "images?10" "images" 10 (some Direction.left)]⟩) ∧
    anyElem (fun _ a => a.contains ("id", "modal-content-left"))
      (modalTree "images?10" "images" 10 (some Direction.left)) = true ∧
    anyElem (fun t a => t == "img" && a.contains ("src", "images?10"))
      (modalTree "images?10" "images" 10 (some Direction.left)) = true ∧
    (∀ (url base : String) (id : Int) (d : Direction) (m : Html),
      parseRef url = some (base, id) → Modal url (some d) = some m →
      anyElem (fun t a => t == "div" && a.contains ("id", "modal-content-" ++ d.fmt))
        m = true) := by
  refine ⟨fun c => rfl, by decide, by decide, ?_⟩
  intro url base id d m hpr hm
  rw [Modal_eq_of_parseRef url base id (some d) hpr] at hm
  have hme : m = modalTree url base id (some d) := (Option.some.inj hm).symm
  rw [hme]
  cases d <;> rfl

/-- Witness for C4's general conjunct at the concrete reference `"pic?3"`
with direction `right`. -/
theorem c4_modal_end_to_end_witness :
    anyElem (fun t a => t == "div" && a.contains ("id", "modal-content-" ++ Direction.fmt Direction.right))
      (modalTree "pic?3" "pic" 3 (some Direction.right)) = true :=
  c4_modal_end_to_end.2.2.2 "pic?3" "pic" 3 Direction.right
    (modalTree "pic?3" "pic" 3 (some Direction.right)) (by decide) rfl

/-- C3 (amended): for the modal rendered from `url="images?5"` with no
direction, the next-navigation target embeds id 6 with `dir=right` and the
previous target id 4 with `dir=left`; in general, for every well-formed
reference `(base, id)`, the two navigation targets embed `base` with the
32-bit wraparound of `id - 1` (`dir=left`) and of `id + 1` (`dir=right`) —
these equal `id - 1` and `id + 1` everywhere except at the `i32` boundary
values (see the counterexample). -/
theorem c3_nav_targets :
    (Modal "images?5" none = some (modalTree "images?5" "images" 5 none) ∧
     collectAttr "button" "hx-get" (modalTree "images?5" "images" 5 none) =
       ["/modal/open?dir=left&url=images?4", "/modal/open?dir=right&url=images?6"]) ∧
    (∀ (url base : String) (id : Int) (dir : Option Direction) (m : Html),
      parseRef url = some (base, id) → Modal url dir = some m →
      collectAttr "button" "hx-get" m =
        ["/modal/open?dir=left&url=" ++ base ++ "?" ++ intRepr (wrap32 (id - 1)),
         "/modal/open?dir=right&url=" ++ base ++ "?" ++ intRepr (wrap32 (id + 1))]) := by
  refine ⟨⟨rfl, by decide⟩, ?_⟩
  intro url base id dir m hpr hm
  rw [Modal_eq_of_parseRef url base id dir hpr] at hm
  rw [(Option.some.inj hm).symm]
  exact modalTree_nav_targets url base id dir

/-- Counterexample to C3 as stated: at the reference `"images?2147483647"`
(id = `i32::MAX`) the modal renders, but the next-navigation target embeds
the wrapped value `-2147483648` rather than `id + 1 = 2147483648`. -/
theorem c3_nav_targets_counterexample :
    (Modal "images?2147483647" none).isSome = true ∧
    collectAttr "button" "hx-get" ((Modal "images?2147483647" none).getD (.text "")) =
      ["/modal/open?dir=left&url=images?2147483646",
       "/modal/open?dir=right&url=images?-2147483648"] ∧
    ("/modal/open?dir=right&url=images?-2147483648" : String) ≠
      "/modal/open?dir=right&url=images?2147483648" := by
  refine ⟨rfl, by decide, by decide⟩

/-- Witness for C3's general conjunct at the concrete reference `"pics?9"`. -/
theorem c3_nav_targets_witness :
    collectAttr "button" "hx-get" (modalTree "pics?9" "pics" 9 none) =
      ["/modal/open?dir=left&url=" ++ "pics" ++ "?" ++ intRepr (wrap32 ((9 : Int) - 1)),
       "/modal/open?dir=right&url=" ++ "pics" ++ "?" ++ intRepr (wrap32 ((9 : Int) + 1))] :=
  c3_nav_targets.2 "pics?9" "pics" 9 none (modalTree "pics?9" "pics" 9 none) (by decide) rfl

/-- C10 (amended): the parsed id is a signed 32-bit integer with no range
validation or clamping: every reference whose trailing segment parses as an
`i32` — negative values included — renders successfully, and the
previous/next navigation targets embed the 32-bit wraparound of `n - 1` and
`n + 1` (equal to `n - 1` and `n + 1` except at the `i32` boundaries); in
particular the previous target of `"images?0"` embeds `-1`, so navigation
goes below zero, down to `i32::MIN` where it wraps (see the
counterexample). -/
theorem c10_id_unchecked :
    (∀ (url base : String) (n : Int) (dir : Option Direction),
      parseRef url = some (base, n) →
      (-2147483648 ≤ n ∧ n ≤ 2147483647) ∧
      Modal url dir = some (modalTree url base n dir) ∧
      collectAttr "button" "hx-get" (modalTree url base n dir) =
        ["/modal/open?dir=left&url=" ++ base ++ "?" ++ intRepr (wrap32 (n - 1)),
         "/modal/open?dir=right&url=" ++ base ++ "?" ++ intRepr (wrap32 (n + 1))]) ∧
    (Modal "images?0" none = some (modalTree "images?0" "images" 0 none) ∧
     collectAttr "button" "hx-get" (modalTree "images?0" "images" 0 none) =
       ["/modal/open?dir=left&url=images?-1", "/modal/open?dir=right&url=images?1"]) := by
  refine ⟨?_, rfl, by decide⟩
  intro url base n dir hpr
  exact ⟨parseRef_range url base n hpr,
    Modal_eq_of_parseRef url base n dir hpr,
    modalTree_nav_targets url base n dir⟩

/-- Counterexample to C10 as stated: at the reference
`"images?-2147483648"` (n = `i32::MIN`) the modal renders, but the previous
navigation target embeds the wrapped value `2147483647` rather than
`n - 1 = -2147483649`. -/
theorem c10_id_unchecked_counterexample :
    (Modal "images?-2147483648" none).isSome = true ∧
    collectAttr "button" "hx-get" ((Modal "images?-2147483648" none).getD (.text "")) =
      ["/modal/open?dir=left&url=images?2147483647",
       "/modal/open?dir=right&url=images?-2147483647"] ∧
    ("/modal/open?dir=left&url=images?2147483647" : String) ≠
      "/modal/open?dir=left&url=images?-2147483649" := by
  refine ⟨rfl, by decide, by decide⟩

/-- Witness for C10's general conjunct at the concrete reference `"a?-3"`. -/
theorem c10_id_unchecked_witness :
    (-2147483648 ≤ (-3 : Int) ∧ (-3 : Int) ≤ 2147483647) ∧
    Modal "a?-3" (some Direction.right) = some (modalTree "a?-3" "a" (-3) (some Direction.right)) ∧
    collectAttr "button" "hx-get" (modalTree "a?-3" "a" (-3) (some Direction.right)) =
      ["/modal/open?dir=left&url=" ++ "a" ++ "?" ++ intRepr (wrap32 ((-3 : Int) - 1)),
       "/modal/open?dir=right&url=" ++ "a" ++ "?" ++ intRepr (wrap32 ((-3 : Int) + 1))] :=
  c10_id_unchecked.1 "a?-3" "a" (-3) (some Direction.right) (by decide)

/-- C6 (amended): for every `N < 2^32`, `N` sequential single-threaded calls
to the image-URL generator from process start (counter 0) produce `N`
pairwise distinct URLs whose embedded counter values are strictly
increasing; at `N = 2^32` the `u32` counter wraps to 0 and the claim as
stated fails (see the counterexample). -/
theorem c6_counter_monotonic : ∀ N : Nat, N < u32Mod →
    (nextImageUrls N 0).1 =
      ((counterVals N 0).1).map (fun v => "https://picsum.photos/800/800?" ++ decRepr v) ∧
    ((nextImageUrls N 0).1).length = N ∧
    ((nextImageUrls N 0).1).Nodup ∧
    List.Pairwise (· < ·) ((counterVals N 0).1) := by
  intro N hN
  have hvals : (counterVals N 0).1 = List.range' 1 N := by
    have h := counterVals_fst N 0 (by omega)
    simpa using h
  have hmap := nextImageUrls_eq_map N 0
  refine ⟨hmap, ?_, ?_, ?_⟩
  · rw [hmap, hvals, List.length_map]
    exact List.length_range' 1 1 N
  · rw [hmap, hvals]
    exact (List.nodup_range' 1 N 1 (by norm_num)).map picsum_url_injective
  · rw [hvals]
    exact List.pairwise_lt_range' 1 N

/-- Counterexample to C6 as stated: after `N = 2^32` sequential calls the
embedded counter values are not strictly increasing (the last value has
wrapped to 0, below all earlier values). -/
theorem c6_counter_monotonic_counterexample :
    ¬ (((nextImageUrls u32Mod 0).1).Nodup ∧
       List.Pairwise (· < ·) ((counterVals u32Mod 0).1)) := by
  intro hcl
  have hp := hcl.2
  have hsplit : (counterVals u32Mod 0).1 =
      (counterVals (u32Mod - 1) 0).1 ++
        (counterVals 1 ((counterVals (u32Mod - 1) 0).2)).1 := by
    have h := counterVals_split (u32Mod - 1) 1 0
    rw [show u32Mod - 1 + 1 = u32Mod from by norm_num [u32Mod]] at h
    exact h
  have hfst : (counterVals (u32Mod - 1) 0).1 = List.range' 1 (u32Mod - 1) := by
    have h := counterVals_fst (u32Mod - 1) 0 (by norm_num [u32Mod])
    simpa using h
  have hsnd : (counterVals (u32Mod - 1) 0).2 = u32Mod - 1 := by
    have h := counterVals_snd (u32Mod - 1) 0 (by norm_num [u32Mod])
    simpa using h
  have hlast : (counterVals 1 (u32Mod - 1)).1 = [0] := by
    have h0 : (counterVals 1 (u32Mod - 1)).1 = [(u32Mod - 1 + 1) % u32Mod] := rfl
    rw [h0]
    norm_num [u32Mod]
  rw [hsplit, hfst, hsnd, hlast] at hp
  rw [List.pairwise_append] at hp
  have h1mem : (1 : Nat) ∈ List.range' 1 (u32Mod - 1) := by
    rw [List.mem_range'_1]
    norm_num [u32Mod]
  have h10 := hp.2.2 1 h1mem 0 (by simp)
  omega

/-- Witness for C6 at `N = 3`. -/
theorem c6_counter_monotonic_witness :
    (nextImageUrls 3 0).1 =
      ((counterVals 3 0).1).map (fun v => "https://picsum.photos/800/800?" ++ decRepr v) ∧
    ((nextImageUrls 3 0).1).length = 3 ∧
    ((nextImageUrls 3 0).1).Nodup ∧
    List.Pairwise (· < ·) ((counterVals 3 0).1) :=
  c6_counter_monotonic 3 (by norm_num [u32Mod])

/-- C7 (amended): rendering one image item advances the shared process-wide
counter by exactly one modulo 2^32 — exactly `+1` whenever the counter is
below `u32::MAX` (at the maximum it wraps to 0, see the counterexample) —
the modal handler leaves the counter unchanged, and one list render advances
it by 16 modulo 2^32 (exactly `+16` below the wrap), as do the `/` and
`/more` handlers, whose only counter effect is their 16 item renders. -/
theorem c7_counter_frame : ∀ (c : Nat) (q : List (String × String)),
    (image_item c).2 = (c + 1) % u32Mod ∧
    (c + 1 < u32Mod → (image_item c).2 = c + 1) ∧
    (image_list c).2 = (c + 16) % u32Mod ∧
    (c + 16 < u32Mod → (image_list c).2 = c + 16) ∧
    (modal q c).2 = c ∧
    (more c).2 = (c + 16) % u32Mod ∧
    (root c).2 = (c + 16) % u32Mod := by
  intro c q
  have hlist : (image_list c).2 = (c + 16) % u32Mod := image_list_snd c
  refine ⟨rfl, ?_, hlist, ?_, rfl, hlist, hlist⟩
  · intro h
    exact Nat.mod_eq_of_lt h
  · intro h
    rw [hlist]
    exact Nat.mod_eq_of_lt h

/-- Counterexample to C7 as stated: with the counter at `u32::MAX`, one item
render sets it to 0, not to `u32::MAX + 1`. -/
theorem c7_counter_frame_counterexample :
    (image_item (u32Mod - 1)).2 = 0 ∧ (u32Mod - 1) + 1 ≠ 0 := by
  constructor
  · show (u32Mod - 1 + 1) % u32Mod = 0
    norm_num [u32Mod]
  · norm_num [u32Mod]

/-- Witness for C7 at counter value 5. -/
theorem c7_counter_frame_witness : (image_item 5).2 = 5 + 1 :=
  (c7_counter_frame 5 []).2.1 (by norm_num [u32Mod])
